import Mathlib

/-!
Verification of the resolution-sniping bot (`main.py`) against its
specification.  The Python module is shallowly embedded: `Decimal` prices
and float timestamps become exact rationals (`ℚ`), network interaction
becomes an oracle `Nat → Outcome` giving the outcome of each HTTP attempt,
and the per-market monitoring loop becomes an explicit step function on a
monitor state.
-/

namespace ResolutionSniper

/-- The constant `HISTORY_WINDOW_SECONDS = 10` (main.py line 40). -/
def HISTORY_WINDOW_SECONDS : ℚ := 10

/-- The constant `HISTORY_BUFFER_SIZE = 50` (main.py line 41). -/
def HISTORY_BUFFER_SIZE : Nat := 50

/-- The constant `MAX_RETRIES = 3` (main.py line 46). -/
def MAX_RETRIES : Nat := 3

/-- One entry of `Market.price_history`: `(timestamp, yes_price, no_price)`. -/
abbrev Sample := ℚ × ℚ × ℚ

/-- The immutable identity part of the `Market` dataclass (main.py lines 49-58).
The mutable fields `price_history` and `last_snipe_ts` are carried separately
in `MonitorState` so that state evolution is explicit. -/
structure Market where
  condition_id : String
  yes_token : String
  no_token : String
  name : String
deriving DecidableEq, Repr

/-- The `Settings` dataclass (main.py lines 61-67). -/
structure Settings where
  price_threshold : ℚ
  spike_threshold : ℚ
  max_slippage : ℚ
  snipe_amount_usdc : ℚ
  dry_run : Bool
deriving DecidableEq, Repr

/-- A Python `Dict[str, Decimal]` of token prices, modelled as an association
list with unique keys (kept unique by `buildPrices`). -/
abbrev Prices := List (String × ℚ)

/-- Dictionary lookup `prices[token]`, made total by returning `Option`:
`none` models an uncaught `KeyError`. -/
def lookupPrice (prices : Prices) (token : String) : Option ℚ :=
  (prices.find? (fun kv => kv.1 == token)).map (fun kv => kv.2)

/-- The in-window sample selection of `detect_spike` (main.py line 155):
`[point for point in history if now - point[0] <= HISTORY_WINDOW_SECONDS]`. -/
def inWindow (history : List Sample) (now : ℚ) : List Sample :=
  history.filter (fun point => decide (now - point.1 ≤ HISTORY_WINDOW_SECONDS))

/-- The winning side's price of a sample: `point[1]` if the winner is YES,
else `point[2]` (main.py line 158). -/
def sidePrice (winner_is_yes : Bool) (point : Sample) : ℚ :=
  if winner_is_yes then point.2.1 else point.2.2

/-- Function `detect_spike` (main.py lines 146-162).  Here `recent[0]` is total
(`headI`) because it is only reached when `recent` has length at least 2. -/
def detect_spike (history : List Sample) (now : ℚ) (winning_price : ℚ)
    (winner_is_yes : Bool) (spike_threshold : ℚ) : Bool :=
  let recent := inWindow history now
  if recent.length < 2 then false
  else
    let baseline_price := sidePrice winner_is_yes recent.headI
    if baseline_price ≤ 0 then false
    else decide (spike_threshold ≤ (winning_price - baseline_price) / baseline_price)

/-- Round a rational to the nearest integer, ties to the even neighbour:
the `ROUND_HALF_EVEN` rounding mode that Python's `Decimal` context applies
by default in `quantize`. -/
def roundHalfEven (x : ℚ) : ℤ :=
  let f := Int.floor x
  let r := x - (f : ℚ)
  if r < 1/2 then f
  else if 1/2 < r then f + 1
  else if Even f then f else f + 1

/-- Model of `shares.quantize(Decimal("0.0001"))` (main.py line 169): round to four
decimal places with the context's default rounding, `ROUND_HALF_EVEN`. -/
def quantize4 (x : ℚ) : ℚ :=
  (roundHalfEven (x * 10000) : ℚ) / 10000

/-- Function `compute_order_quantity` (main.py lines 165-169).  `Decimal` division is
modelled as exact rational division (the 28-significant-digit context
precision is far below the granularity the 4-decimal quantize observes for
the magnitudes involved); the `ValueError` raise becomes `Except.error`. -/
def compute_order_quantity (amount_usdc : ℚ) (target_price : ℚ) : Except String ℚ :=
  if target_price ≤ 0 then .error ("target_price must be positive")
  else
    let shares := amount_usdc / target_price
    .ok (quantize4 shares)

/-- Function `determine_winner` (main.py lines 172-179).  The unchecked dictionary
lookups become `Option` binds: a `none` result models an uncaught `KeyError`. -/
def determine_winner (prices : Prices) (market : Market) :
    Option (String × ℚ × Bool) := do
  let yes_price ← lookupPrice prices market.yes_token
  let no_price ← lookupPrice prices market.no_token
  if no_price ≤ yes_price then
    pure (market.yes_token, yes_price, true)
  else
    pure (market.no_token, no_price, false)

/-- The append-then-truncate core of `update_history` (main.py lines 186-188):
append the sample, and if the buffer now exceeds `HISTORY_BUFFER_SIZE`, keep
only the last `HISTORY_BUFFER_SIZE` entries (`history[-HISTORY_BUFFER_SIZE:]`). -/
def appendSample (history : List Sample) (s : Sample) : List Sample :=
  let h := history ++ [s]
  if HISTORY_BUFFER_SIZE < h.length then h.drop (h.length - HISTORY_BUFFER_SIZE) else h

/-- Function `update_history` (main.py lines 182-188); `now` stands for the
`time.time()` call at line 183.  A `none` result models an uncaught
`KeyError` on the price lookups. -/
def update_history (history : List Sample) (now : ℚ) (prices : Prices)
    (market : Market) : Option (List Sample) := do
  let yes_price ← lookupPrice prices market.yes_token
  let no_price ← lookupPrice prices market.no_token
  pure (appendSample history (now, yes_price, no_price))

/-- One raw entry of the JSON array returned by the `/prices` endpoint:
possibly-missing `token_id` and `price` fields (main.py lines 131-136). -/
abbrev RawEntry := Option String × Option ℚ

/-- The outcome of one HTTP attempt against `/prices`: an HTTP 429
(main.py line 115), a transient client/timeout error (line 121), or a
parsed JSON body (line 120). -/
inductive QuoteOutcome where
  | rateLimited
  | netError
  | response (raw : List RawEntry)
deriving DecidableEq, Repr

/-- The dict comprehension of main.py lines 132-136: keep entries carrying
both fields, later entries overriding earlier ones with the same token id
(Python dict semantics). -/
def buildPrices (raw : List RawEntry) : Prices :=
  raw.foldl
    (fun d e =>
      match e with
      | (some t, some p) => d.filter (fun kv => kv.1 != t) ++ [(t, p)]
      | _ => d)
    []

/-- The response-parsing block of `get_prices` (main.py lines 131-142):
build the price dict, and fail (caught `KeyError` → `None`) unless both of
the market's token ids received a price. -/
def parsePrices (market : Market) (raw : List RawEntry) : Option Prices :=
  let prices := buildPrices raw
  if (lookupPrice prices market.yes_token).isSome &&
     (lookupPrice prices market.no_token).isSome then
    some prices
  else
    none

/-- The retry loop of `get_prices` (main.py lines 112-143): `i` is the index
of the next attempt, the second argument the number of loop iterations left
out of `MAX_RETRIES`.  A 429 and a transient error both consume one
iteration and continue; a received response is parsed and returned (or
fails) without further retries; an exhausted loop falls through to
`return None` (line 143). -/
def getPricesLoop (market : Market) (oracle : Nat → QuoteOutcome) :
    Nat → Nat → Option Prices
  | _, 0 => none
  | i, r + 1 =>
    match oracle i with
    | .rateLimited => getPricesLoop market oracle (i + 1) r
    | .netError => getPricesLoop market oracle (i + 1) r
    | .response raw => parsePrices market raw

/-- Function `get_prices` (main.py lines 98-143), with network interaction abstracted
into an oracle giving the outcome of each attempt. -/
def get_prices (market : Market) (oracle : Nat → QuoteOutcome) : Option Prices :=
  getPricesLoop market oracle 0 MAX_RETRIES

/-- Outcome of one HTTP attempt against `/orders` (main.py lines 220-231). -/
inductive SubmitOutcome where
  | rateLimited
  | netError
  | response (receipt : String)
deriving DecidableEq, Repr

/-- The retry loop of `submit_order` (main.py lines 216-232): same
retry discipline as `get_prices`, but an exhausted loop raises
`RuntimeError` (line 232), modelled as `Except.error`. -/
def submitOrderLoop (oracle : Nat → SubmitOutcome) :
    Nat → Nat → Except String String
  | _, 0 => .error ("Failed to submit order after retries")
  | i, r + 1 =>
    match oracle i with
    | .rateLimited => submitOrderLoop oracle (i + 1) r
    | .netError => submitOrderLoop oracle (i + 1) r
    | .response receipt => .ok receipt

/-- Function `submit_order` (main.py lines 216-232). -/
def submit_order (oracle : Nat → SubmitOutcome) : Except String String :=
  submitOrderLoop oracle 0 MAX_RETRIES

/-- The mutable per-market state of `monitor_market`: the fields
`price_history` and `last_snipe_ts` of the `Market` dataclass. -/
structure MonitorState where
  price_history : List Sample
  last_snipe_ts : ℚ
deriving DecidableEq, Repr

/-- The environment of one iteration of the `monitor_market` loop:
the result of `get_prices` this poll, the `time.time()` value taken inside
`update_history` (line 183), the `time.time()` value taken at line 298, and
whether the `snipe_buy` attempt would raise.  The exception is caught at
lines 313-314 after `last_snipe_ts` is already set, so `exec_fails` cannot
influence the state transition. -/
structure PollInput where
  prices : Option Prices
  sample_ts : ℚ
  now : ℚ
  exec_fails : Bool
deriving DecidableEq, Repr

/-- One iteration of the `monitor_market` loop body (main.py lines 291-315),
returning the successor state and whether a snipe was attempted this poll.
A `none` result models an uncaught `KeyError` from the dictionary lookups
(which would crash the task).  Order of operations follows the source:
failed poll → sleep and continue (line 293); `update_history` (line 296);
`determine_winner` (line 297); cooldown check (line 299); trigger gate
`winner_price >= price_threshold and has_spike` (line 309), which on fire
sets `last_snipe_ts := now` (line 310) before the guarded snipe attempt. -/
def monitorStep (settings : Settings) (market : Market) (st : MonitorState)
    (input : PollInput) : Option (MonitorState × Bool) :=
  match input.prices with
  | none => some (st, false)
  | some prices => do
    let history ← update_history st.price_history input.sample_ts prices market
    let w ← determine_winner prices market
    let winner_price := w.2.1
    let winner_is_yes := w.2.2
    if input.now - st.last_snipe_ts < HISTORY_WINDOW_SECONDS then
      pure (⟨history, st.last_snipe_ts⟩, false)
    else if settings.price_threshold ≤ winner_price ∧
        detect_spike history input.now winner_price winner_is_yes
          settings.spike_threshold = true then
      pure (⟨history, input.now⟩, true)
    else
      pure (⟨history, st.last_snipe_ts⟩, false)

/-- The number of snipe attempts made over a sequence of polls, starting
from state `st`; a crashed task (uncaught `KeyError`) makes no further
attempts. -/
def runAttempts (settings : Settings) (market : Market) :
    MonitorState → List PollInput → Nat
  | _, [] => 0
  | st, input :: rest =>
    match monitorStep settings market st input with
    | none => 0
    | some (st', fired) =>
      (if fired then 1 else 0) + runAttempts settings market st' rest

/-!
Concrete fixtures used by the witnesses below.
-/

/-- A concrete market configuration used in witnesses. -/
def testMarket : Market := ⟨"c", "Y", "N", "m"⟩

/-- A concrete settings value: thresholds 0.97 and 0.15, dry-run. -/
def testSettings : Settings := ⟨97/100, 3/20, 1/100, 100, true⟩

/-- A well-formed raw quote response carrying both test tokens. -/
def goodRaw : List RawEntry := [(some "Y", some (49/50)), (some "N", some (1/50))]

/-- An oracle whose first three quote attempts are rate-limited and whose
fourth would succeed. -/
def throttledOracle : Nat → QuoteOutcome :=
  fun i => if i < 3 then .rateLimited else .response goodRaw

/-- A quote oracle that alternates the two transient failure modes. -/
def transientQuoteOracle : Nat → QuoteOutcome :=
  fun i => if i = 1 then .netError else .rateLimited

/-- A submission oracle that always fails transiently. -/
def transientSubmitOracle : Nat → SubmitOutcome := fun _ => .netError

/-- A quote oracle answering correctly on the first attempt. -/
def goodOracle : Nat → QuoteOutcome := fun _ => .response goodRaw

/-- An initial monitor state: one old sample, cooldown long expired. -/
def st0 : MonitorState := ⟨[(0, 4/5, 1/5)], -100⟩

/-- A poll at time 3 whose YES price 0.96 spikes but misses the 0.97 gate. -/
def input96 : PollInput := ⟨some [("Y", 24/25), ("N", 1/25)], 3, 3, false⟩

/-- A poll at time 3 whose YES price 0.98 spikes and passes the 0.97 gate;
the execution attempt fails. -/
def input98 : PollInput := ⟨some [("Y", 49/50), ("N", 1/50)], 3, 3, true⟩

/-- A qualifying poll at time 5, two seconds after a trigger at time 3. -/
def laterInput : PollInput := ⟨some [("Y", 1), ("N", 0)], 5, 5, false⟩

/-- The history produced by `st0` after the sample of `input98`. -/
def hist98 : List Sample := [(0, 4/5, 1/5), (3, 49/50, 1/50)]

/-- The history produced by `st0` after the sample of `input96`. -/
def hist96 : List Sample := [(0, 4/5, 1/5), (3, 24/25, 1/25)]

/-!
Theorems settling the claims.
-/

/-- C2: the claim says `compute_order_quantity` rounds `amount_usdc /
target_price` down to four decimals so that the returned size times the
price never exceeds `amount_usdc`.  The code instead quantizes with the
`Decimal` default `ROUND_HALF_EVEN`: at `amount_usdc = 0.00015`,
`target_price = 1` it returns `0.0002`, whose notional `0.0002 × 1`
exceeds the requested `0.00015`. -/
theorem c2_quantize_rounds_half_even :
    compute_order_quantity (3/20000) 1 = .ok (1/5000) ∧
    (3/20000 : ℚ) < (1/5000) * 1 := by
  constructor
  · norm_num [compute_order_quantity, quantize4, roundHalfEven]
  · norm_num

/-- C8: when both tokens have a price, `determine_winner` returns the YES
token with its price and flag `true` exactly when `yes_price ≥ no_price`,
and otherwise the NO token with its price and flag `false`; in particular
equal prices select the YES token. -/
theorem c8_determine_winner_tie_break (prices : Prices) (market : Market)
    (yp np : ℚ)
    (hy : lookupPrice prices market.yes_token = some yp)
    (hn : lookupPrice prices market.no_token = some np) :
    determine_winner prices market =
      some (if np ≤ yp then (market.yes_token, yp, true)
            else (market.no_token, np, false)) ∧
    (determine_winner prices market = some (market.yes_token, yp, true) ↔
      np ≤ yp) := by
  have heq : determine_winner prices market =
      some (if np ≤ yp then (market.yes_token, yp, true)
            else (market.no_token, np, false)) := by
    simp only [determine_winner, hy, hn, Option.bind_eq_bind, Option.some_bind]
    by_cases h : np ≤ yp
    · simp [h]
    · simp [h]
  refine ⟨heq, ?_, ?_⟩
  · intro hres
    by_contra hnle
    rw [heq, if_neg hnle] at hres
    simp only [Option.some.injEq, Prod.mk.injEq] at hres
    exact Bool.false_ne_true hres.2.2
  · intro hle
    rw [heq, if_pos hle]

/-- C8 witness: equal prices `1/2` for both tokens select the YES token. -/
theorem c8_tie_break_witness :
    determine_winner [("Y", 1/2), ("N", 1/2)] testMarket =
      some (("Y"), 1/2, true) := by
  have h := c8_determine_winner_tie_break [("Y", 1/2), ("N", 1/2)] testMarket
    (1/2) (1/2)
    (by simp [lookupPrice, List.find?, testMarket])
    (by simp [lookupPrice, List.find?, testMarket])
  rw [h.1, if_pos le_rfl]
  rfl

/-- C9: for fixed history, time, winning side and threshold, `detect_spike`
is monotonically non-decreasing in the winning price. -/
theorem c9_detect_spike_mono (history : List Sample)
    (now spike_threshold p p' : ℚ) (winner_is_yes : Bool)
    (hpp : p ≤ p')
    (h : detect_spike history now p winner_is_yes spike_threshold = true) :
    detect_spike history now p' winner_is_yes spike_threshold = true := by
  simp only [detect_spike] at h ⊢
  by_cases hlen : (inWindow history now).length < 2
  · rw [if_pos hlen] at h
    exact absurd h Bool.false_ne_true
  · rw [if_neg hlen] at h ⊢
    by_cases hb : sidePrice winner_is_yes (inWindow history now).headI ≤ 0
    · rw [if_pos hb] at h
      exact absurd h Bool.false_ne_true
    · rw [if_neg hb] at h ⊢
      rw [decide_eq_true_iff] at h ⊢
      have hbpos : 0 < sidePrice winner_is_yes (inWindow history now).headI :=
        lt_of_not_le hb
      refine h.trans ?_
      rw [div_le_div_iff_of_pos_right hbpos]
      exact sub_le_sub_right hpp _

/-- C9 witness: the spike at winning price `0.95` (increase 18.75% over
baseline 0.80) persists at the larger winning price `0.99`. -/
theorem c9_mono_witness :
    detect_spike [(0, 4/5, 1/5), (3, 19/20, 1/20)] 3 (99/100) true (3/20) = true :=
  c9_detect_spike_mono [(0, 4/5, 1/5), (3, 19/20, 1/20)] 3 (3/20) (19/20) (99/100)
    true (by norm_num)
    (by norm_num [detect_spike, inWindow, sidePrice, List.headI,
      HISTORY_WINDOW_SECONDS, List.filter])

/-- Helper: the head of a list that is pairwise non-decreasing in timestamp
carries a timestamp no later than any member. -/
theorem headI_ts_le_of_pairwise {l : List Sample}
    (hl : l.Pairwise (fun a b => a.1 ≤ b.1)) :
    ∀ q ∈ l, l.headI.1 ≤ q.1 := by
  cases l with
  | nil => intro q hq; simp at hq
  | cons a t =>
    intro q hq
    rcases List.mem_cons.mp hq with rfl | hq
    · exact le_refl _
    · exact (List.pairwise_cons.mp hl).1 q hq

/-- C1: for a history whose timestamps are non-decreasing (the invariant the
monitor maintains), `detect_spike` returns `true` if and only if at least two
samples lie in the trailing window, the earliest in-window sample's price for
the winning side is strictly positive, and the relative increase of
`winning_price` over that baseline is at least `spike_threshold`; in every
other case it returns `false`. -/
theorem c1_detect_spike_iff (history : List Sample)
    (now winning_price spike_threshold : ℚ) (winner_is_yes : Bool)
    (hsorted : history.Pairwise (fun a b => a.1 ≤ b.1)) :
    detect_spike history now winning_price winner_is_yes spike_threshold = true ↔
      (2 ≤ (inWindow history now).length ∧
        (∀ q ∈ inWindow history now, (inWindow history now).headI.1 ≤ q.1) ∧
        0 < sidePrice winner_is_yes (inWindow history now).headI ∧
        spike_threshold ≤
          (winning_price - sidePrice winner_is_yes (inWindow history now).headI) /
            sidePrice winner_is_yes (inWindow history now).headI) := by
  have hpair : (inWindow history now).Pairwise (fun a b => a.1 ≤ b.1) :=
    List.Pairwise.sublist (List.filter_sublist history) hsorted
  have hhead := headI_ts_le_of_pairwise hpair
  constructor
  · intro h
    simp only [detect_spike] at h
    by_cases hlen : (inWindow history now).length < 2
    · rw [if_pos hlen] at h
      exact absurd h Bool.false_ne_true
    · rw [if_neg hlen] at h
      by_cases hb : sidePrice winner_is_yes (inWindow history now).headI ≤ 0
      · rw [if_pos hb] at h
        exact absurd h Bool.false_ne_true
      · rw [if_neg hb, decide_eq_true_iff] at h
        exact ⟨by omega, hhead, lt_of_not_le hb, h⟩
  · rintro ⟨h2, -, hb, hs⟩
    simp only [detect_spike]
    rw [if_neg (by omega), if_neg (not_le.mpr hb), decide_eq_true_iff]
    exact hs

/-- C1 witness: two in-window samples, baseline 0.80 for YES, winning price
0.95, relative increase 0.1875 ≥ threshold 0.15, so the spike fires. -/
theorem c1_spike_witness :
    detect_spike [(0, 4/5, 1/5), (3, 19/20, 1/20)] 3 (19/20) true (3/20) = true := by
  have h := c1_detect_spike_iff [(0, 4/5, 1/5), (3, 19/20, 1/20)] 3 (19/20)
    (3/20) true (by norm_num [List.pairwise_cons])
  rw [h]
  norm_num [inWindow, sidePrice, List.headI, HISTORY_WINDOW_SECONDS, List.filter]

/-- Helper: folding `appendSample` over any list of samples from the empty
buffer retains exactly the suffix past the first `length − capacity`
entries. -/
theorem foldl_appendSample_eq (samples : List Sample) :
    samples.foldl appendSample [] =
      samples.drop (samples.length - HISTORY_BUFFER_SIZE) := by
  induction samples using List.reverseRecOn with
  | nil => simp
  | append_singleton ss s ih =>
    rw [List.foldl_append, List.foldl_cons, List.foldl_nil, ih]
    simp only [appendSample, HISTORY_BUFFER_SIZE, List.length_append,
      List.length_singleton]
    by_cases hlen : ss.length < 50
    · have h1 : ss.length - 50 = 0 := by omega
      have h2 : ss.length + 1 - 50 = 0 := by omega
      have hnc : ¬ (50 < ss.length + 1) := by omega
      rw [h1, h2, List.drop_zero, List.drop_zero, if_neg hnc]
    · have hdlen : (ss.drop (ss.length - 50)).length = 50 := by
        rw [List.length_drop]
        omega
      rw [hdlen, if_pos (by omega : 50 < 50 + 1),
        show 50 + 1 - 50 = 1 from by omega,
        List.drop_append_of_le_length (by rw [hdlen]; omega),
        List.drop_drop,
        List.drop_append_of_le_length (by omega : ss.length + 1 - 50 ≤ ss.length),
        show ss.length - 50 + 1 = ss.length + 1 - 50 from by omega]

/-- C5: starting from the empty buffer of a fresh market, after any sequence
of appends the buffer holds at most `HISTORY_BUFFER_SIZE` entries, and those
entries are exactly the suffix of the appended sequence past its oldest
`length − HISTORY_BUFFER_SIZE` samples (drop-oldest); since the monitor
appends in timestamp order, that suffix is the most recent
`HISTORY_BUFFER_SIZE` (or fewer) samples by timestamp. -/
theorem c5_history_bound (samples : List Sample) :
    (samples.foldl appendSample []).length ≤ HISTORY_BUFFER_SIZE ∧
    samples.foldl appendSample [] =
      samples.drop (samples.length - HISTORY_BUFFER_SIZE) := by
  refine ⟨?_, foldl_appendSample_eq samples⟩
  rw [foldl_appendSample_eq samples, List.length_drop]
  omega

/-- C6: when all `MAX_RETRIES` attempts fail transiently (HTTP 429 or a
network error), `get_prices` degrades to `none` without raising, whereas
`submit_order` raises `RuntimeError` (modelled as `Except.error`) rather
than returning a value. -/
theorem c6_exhaustion_quote_vs_submit (market : Market)
    (qo : Nat → QuoteOutcome) (so : Nat → SubmitOutcome)
    (hq : ∀ i, i < MAX_RETRIES →
      qo i = QuoteOutcome.rateLimited ∨ qo i = QuoteOutcome.netError)
    (hs : ∀ i, i < MAX_RETRIES →
      so i = SubmitOutcome.rateLimited ∨ so i = SubmitOutcome.netError) :
    get_prices market qo = none ∧
    submit_order so = .error ("Failed to submit order after retries") := by
  constructor
  · rcases hq 0 (by norm_num [MAX_RETRIES]) with h0 | h0 <;>
      rcases hq 1 (by norm_num [MAX_RETRIES]) with h1 | h1 <;>
        rcases hq 2 (by norm_num [MAX_RETRIES]) with h2 | h2 <;>
          simp [get_prices, MAX_RETRIES, getPricesLoop, h0, h1, h2]
  · rcases hs 0 (by norm_num [MAX_RETRIES]) with h0 | h0 <;>
      rcases hs 1 (by norm_num [MAX_RETRIES]) with h1 | h1 <;>
        rcases hs 2 (by norm_num [MAX_RETRIES]) with h2 | h2 <;>
          simp [submit_order, MAX_RETRIES, submitOrderLoop, h0, h1, h2]

/-- C6 witness: concrete transiently-failing oracles exhaust the budget;
the quote call returns `none`, the submission raises. -/
theorem c6_exhaustion_witness :
    get_prices testMarket transientQuoteOracle = none ∧
    submit_order transientSubmitOracle =
      .error ("Failed to submit order after retries") :=
  c6_exhaustion_quote_vs_submit testMarket transientQuoteOracle
    transientSubmitOracle
    (by intro i hi; simp [MAX_RETRIES] at hi; interval_cases i <;>
      simp [transientQuoteOracle])
    (by intro i hi; right; rfl)

/-- C7: an HTTP 429 consumes one attempt from the same `MAX_RETRIES` ceiling
as other transient errors: three consecutive 429s exhaust the call, which
returns no data regardless of what any later attempt would have returned. -/
theorem c7_rate_limit_shares_budget (market : Market)
    (qo : Nat → QuoteOutcome)
    (h : ∀ i, i < MAX_RETRIES → qo i = QuoteOutcome.rateLimited) :
    get_prices market qo = none := by
  simp [get_prices, MAX_RETRIES, getPricesLoop, h 0 (by norm_num [MAX_RETRIES]),
    h 1 (by norm_num [MAX_RETRIES]), h 2 (by norm_num [MAX_RETRIES])]

/-- C7 witness: an oracle rate-limited on attempts 0–2 whose attempt 3 would
have answered with a complete response still yields no data. -/
theorem c7_throttled_witness : get_prices testMarket throttledOracle = none :=
  c7_rate_limit_shares_budget testMarket throttledOracle
    (by intro i hi; simp [MAX_RETRIES] at hi; simp [throttledOracle, hi])

/-- Helper: whenever the quote retry loop returns a price dict, that dict
contains a price for both of the market's tokens (the loop only returns
through `parsePrices`, which checks exactly this). -/
theorem getPricesLoop_some_keys (market : Market) (qo : Nat → QuoteOutcome)
    (ps : Prices) :
    ∀ (r i : Nat), getPricesLoop market qo i r = some ps →
      (lookupPrice ps market.yes_token).isSome = true ∧
      (lookupPrice ps market.no_token).isSome = true := by
  intro r
  induction r with
  | zero =>
    intro i h
    exact absurd h (by simp [getPricesLoop])
  | succ n ih =>
    intro i h
    simp only [getPricesLoop] at h
    cases hqo : qo i with
    | rateLimited =>
      rw [hqo] at h
      exact ih (i + 1) h
    | netError =>
      rw [hqo] at h
      exact ih (i + 1) h
    | response raw =>
      rw [hqo] at h
      simp only [parsePrices] at h
      by_cases hc : ((lookupPrice (buildPrices raw) market.yes_token).isSome &&
          (lookupPrice (buildPrices raw) market.no_token).isSome) = true
      · rw [if_pos hc] at h
        obtain rfl : buildPrices raw = ps := Option.some.inj h
        simp only [Bool.and_eq_true] at hc
        exact hc
      · rw [if_neg hc] at h
        exact absurd h (by simp)

/-- C10: every non-`none` result of `get_prices` carries a price for both of
the market's tokens, and consequently the unchecked dictionary lookups in
`determine_winner` and `update_history` never fail on it. -/
theorem c10_get_prices_total_lookups (market : Market)
    (qo : Nat → QuoteOutcome) (ps : Prices)
    (h : get_prices market qo = some ps) :
    (lookupPrice ps market.yes_token).isSome = true ∧
    (lookupPrice ps market.no_token).isSome = true ∧
    (determine_winner ps market).isSome = true ∧
    ∀ (history : List Sample) (now : ℚ),
      (update_history history now ps market).isSome = true := by
  obtain ⟨hy, hn⟩ := getPricesLoop_some_keys market qo ps MAX_RETRIES 0 h
  obtain ⟨yp, hyp⟩ := Option.isSome_iff_exists.mp hy
  obtain ⟨np, hnp⟩ := Option.isSome_iff_exists.mp hn
  refine ⟨hy, hn, ?_, ?_⟩
  · simp only [determine_winner, hyp, hnp, Option.bind_eq_bind, Option.some_bind]
    by_cases h' : np ≤ yp
    · simp [h']
    · simp [h']
  · intro history now
    simp [update_history, hyp, hnp]

/-- C10 witness: a successful first-attempt response yields a dict on which
both lookups, the winner resolution and the history update all succeed. -/
theorem c10_lookups_witness :
    (lookupPrice [("Y", 49/50), ("N", 1/50)] testMarket.yes_token).isSome = true ∧
    (lookupPrice [("Y", 49/50), ("N", 1/50)] testMarket.no_token).isSome = true ∧
    (determine_winner [("Y", 49/50), ("N", 1/50)] testMarket).isSome = true ∧
    ∀ (history : List Sample) (now : ℚ),
      (update_history history now [("Y", 49/50), ("N", 1/50)] testMarket).isSome =
        true :=
  c10_get_prices_total_lookups testMarket goodOracle [("Y", 49/50), ("N", 1/50)]
    (by simp [get_prices, getPricesLoop, MAX_RETRIES, goodOracle, goodRaw,
      parsePrices, buildPrices, lookupPrice, List.find?, List.foldl, List.filter,
      testMarket])

/-- C4: on a poll past cooldown whose lookups succeed, `monitor_market`
attempts a snipe if and only if both gates hold: the winning price reaches
`price_threshold` and `detect_spike` fires; the fired branch records
`last_snipe_ts = now`, the other branch leaves it unchanged. -/
theorem c4_threshold_and_spike_gate (settings : Settings) (market : Market)
    (st : MonitorState) (input : PollInput) (prices : Prices)
    (history : List Sample) (w : String × ℚ × Bool)
    (hp : input.prices = some prices)
    (hh : update_history st.price_history input.sample_ts prices market =
      some history)
    (hw : determine_winner prices market = some w)
    (hcool : HISTORY_WINDOW_SECONDS ≤ input.now - st.last_snipe_ts) :
    monitorStep settings market st input =
      some (if settings.price_threshold ≤ w.2.1 ∧
              detect_spike history input.now w.2.1 w.2.2
                settings.spike_threshold = true
            then (⟨history, input.now⟩, true)
            else (⟨history, st.last_snipe_ts⟩, false)) := by
  simp only [monitorStep, hp, hh, hw, Option.bind_eq_bind, Option.some_bind]
  rw [if_neg (not_lt.mpr hcool)]
  by_cases hg : settings.price_threshold ≤ w.2.1 ∧
      detect_spike history input.now w.2.1 w.2.2 settings.spike_threshold = true
  · rw [if_pos hg, if_pos hg]
    rfl
  · rw [if_neg hg, if_neg hg]
    rfl

/-- C4 witness: with `price_threshold = 0.97`, winning price `0.96` and a
true spike signal, no snipe is attempted. -/
theorem c4_gate_witness :
    detect_spike hist96 3 (24/25) true (3/20) = true ∧
    monitorStep testSettings testMarket st0 input96 =
      some (⟨hist96, -100⟩, false) := by
  constructor
  · norm_num [detect_spike, inWindow, sidePrice, List.headI,
      HISTORY_WINDOW_SECONDS, List.filter, hist96]
  · have h := c4_threshold_and_spike_gate testSettings testMarket st0 input96
      [("Y", 24/25), ("N", 1/25)] hist96 (("Y"), 24/25, true)
      (by rfl)
      (by simp [update_history, lookupPrice, List.find?, appendSample, st0,
        input96, testMarket, hist96, HISTORY_BUFFER_SIZE])
      (by simp [determine_winner, lookupPrice, List.find?, testMarket]; norm_num)
      (by norm_num [HISTORY_WINDOW_SECONDS, st0, input96])
    rw [h, if_neg]
    · rfl
    · rintro ⟨hthr, -⟩
      norm_num [testSettings] at hthr

/-- Helper: while `last_snipe_ts = t` and every poll time is within
`HISTORY_WINDOW_SECONDS` of `t`, the cooldown branch is taken on every poll,
so no snipe attempts occur and `last_snipe_ts` stays `t`. -/
theorem runAttempts_zero_of_recent (settings : Settings) (market : Market)
    (t : ℚ) :
    ∀ (inputs : List PollInput) (st : MonitorState),
      st.last_snipe_ts = t →
      (∀ j ∈ inputs, j.now - t < HISTORY_WINDOW_SECONDS) →
      runAttempts settings market st inputs = 0 := by
  intro inputs
  induction inputs with
  | nil =>
    intro st _ _
    rfl
  | cons input rest ih =>
    intro st hlast hwin
    have hnow : input.now - st.last_snipe_ts < HISTORY_WINDOW_SECONDS := by
      rw [hlast]
      exact hwin input (List.mem_cons_self input rest)
    have hrest : ∀ j ∈ rest, j.now - t < HISTORY_WINDOW_SECONDS :=
      fun j hj => hwin j (List.mem_cons_of_mem input hj)
    rcases hp : input.prices with _ | prices
    · have hstep : monitorStep settings market st input = some (st, false) := by
        simp [monitorStep, hp]
      simp only [runAttempts, hstep]
      simpa using ih st hlast hrest
    · rcases hu : update_history st.price_history input.sample_ts prices market
          with _ | history
      · have hstep : monitorStep settings market st input = none := by
          simp [monitorStep, hp, hu]
        simp only [runAttempts, hstep]
      · rcases hw : determine_winner prices market with _ | w
        · have hstep : monitorStep settings market st input = none := by
            simp [monitorStep, hp, hu, hw]
          simp only [runAttempts, hstep]
        · have hstep : monitorStep settings market st input =
              some (⟨history, st.last_snipe_ts⟩, false) := by
            simp only [monitorStep, hp, hu, hw, Option.bind_eq_bind,
              Option.some_bind]
            rw [if_pos hnow]
            rfl
          simp only [runAttempts, hstep]
          have hlast' : (⟨history, st.last_snipe_ts⟩ : MonitorState).last_snipe_ts
              = t := hlast
          simpa using ih ⟨history, st.last_snipe_ts⟩ hlast' hrest

/-- C3: when a poll triggers a snipe, the successor state records
`last_snipe_ts = now` (set before the execution attempt, whose failure flag
cannot influence the state), and any sequence of later polls whose times are
within `HISTORY_WINDOW_SECONDS` of the trigger produces no further snipe
attempt. -/
theorem c3_cooldown_suppression (settings : Settings) (market : Market)
    (st st₁ : MonitorState) (input : PollInput) (inputs : List PollInput)
    (htrig : monitorStep settings market st input = some (st₁, true))
    (hwin : ∀ j ∈ inputs, j.now - input.now < HISTORY_WINDOW_SECONDS) :
    st₁.last_snipe_ts = input.now ∧
    runAttempts settings market st₁ inputs = 0 := by
  have hlast : st₁.last_snipe_ts = input.now := by
    rcases hp : input.prices with _ | prices
    · simp [monitorStep, hp] at htrig
    · rcases hu : update_history st.price_history input.sample_ts prices market
          with _ | history
      · simp [monitorStep, hp, hu] at htrig
      · rcases hw : determine_winner prices market with _ | w
        · simp [monitorStep, hp, hu, hw] at htrig
        · simp only [monitorStep, hp, hu, hw, Option.bind_eq_bind,
            Option.some_bind] at htrig
          split_ifs at htrig with h1 h2
          · simp at htrig
          · rw [Option.pure_def] at htrig
            have h4 := Option.some.inj htrig
            have h5 : (⟨history, input.now⟩ : MonitorState) = st₁ :=
              congrArg Prod.fst h4
            rw [← h5]
          · simp at htrig
  exact ⟨hlast, runAttempts_zero_of_recent settings market input.now inputs st₁
    hlast hwin⟩

/-- C3 witness: the poll `input98` triggers (price 0.98 ≥ 0.97, spike 22.5%)
with a failing execution attempt; the later qualifying poll two seconds on
is suppressed by the cooldown. -/
theorem c3_suppression_witness :
    (⟨hist98, 3⟩ : MonitorState).last_snipe_ts = 3 ∧
    runAttempts testSettings testMarket ⟨hist98, 3⟩ [laterInput] = 0 :=
  c3_cooldown_suppression testSettings testMarket st0 ⟨hist98, 3⟩ input98
    [laterInput]
    (by simp [monitorStep, st0, input98, testMarket, testSettings,
        update_history, determine_winner, lookupPrice, List.find?, appendSample,
        HISTORY_BUFFER_SIZE, detect_spike, inWindow, sidePrice,
        HISTORY_WINDOW_SECONDS, List.filter, List.headI, hist98]; norm_num)
    (by intro j hj
        simp only [List.mem_singleton] at hj
        subst hj
        norm_num [laterInput, input98, HISTORY_WINDOW_SECONDS])

end ResolutionSniper

